import Mathlib

/-!
Shallow embedding of the GraphGuard schema-deployment core
(`src/modules/schema/schema.service.ts`, `src/modules/deployment/deployment.service.ts`,
`src/infrastructure/database/entities/*.ts`, `src/graphql/enums/deployment-status.enum.ts`).

The persistent store (Postgres via TypeORM) is modelled as lists of entity rows.
TypeORM specifics that the embedded operations depend on:
* `repository.findOne` with a `where` object returns the first row matching the
  predicate (an array of `where` objects is a disjunction);
* `repository.update(id, partial)` updates every row with the given id and skips
  properties whose value is `undefined` (so passing `failureReason: undefined`
  leaves the stored value unchanged); it does not fail when no row matches;
* `manager.transaction(cb)` commits the writes performed through the callback
  manager only when the callback resolves; when the callback throws, the whole
  transaction is rolled back and the error is rethrown;
* a repository that is not bound to the transaction manager reads the committed
  state, so while a transaction is open it cannot see that transaction's
  uncommitted writes (Postgres, read-committed isolation).

Machine integers do not occur in the core; counters and timestamps are `Nat`.
-/

namespace GraphGuard

/-- `DeploymentStatus` enum from `src/graphql/enums/deployment-status.enum.ts`. -/
inductive DeploymentStatus where
  | PENDING
  | IN_PROGRESS
  | SUCCEEDED
  | FAILED
  | ROLLED_BACK
deriving DecidableEq, Repr

/-- One composition error in the upstream publish response
(`ApolloService.publishSchema` result, field `compositionErrors`). -/
structure CompositionError where
  message : String
  code : String
deriving DecidableEq, Repr

/-- Result object of `ApolloService.publishSchema`: `success` is
`!result?.errors?.length`, `compositionErrors` is `result?.errors || []`. -/
structure PublishResult where
  success : Bool
  compositionErrors : List CompositionError
deriving DecidableEq, Repr

/-- Outcome of the one upstream publish call a non-dry deploy makes:
either the HTTP call throws (transport failure, `error.message` is the string)
or it resolves to a `PublishResult`. -/
inductive UpstreamOutcome where
  | transport (msg : String)
  | response (r : PublishResult)
deriving DecidableEq, Repr

/-- Row of the `variants` table (deployment target). Only the columns the
deployment core reads are modelled. -/
structure Variant where
  id : String
  name : String
deriving DecidableEq, Repr

/-- Row of the `schemas` table (`schema.entity.ts`): logical schema identity,
with the nullable `active_version_id` pointer. -/
structure Schema where
  id : String
  variantId : String
  name : String
  activeVersionId : Option String
deriving DecidableEq, Repr

/-- Row of the `schema_versions` table (`schema-version.entity.ts`). -/
structure SchemaVersion where
  id : String
  schemaId : String
  schemaSDL : String
  versionLabel : String
  checksum : String
  versionOrder : Nat
deriving DecidableEq, Repr

/-- Row of the `deployments` table (`deployment.entity.ts`). -/
structure Deployment where
  id : String
  variantId : String
  schemaVersionId : String
  status : DeploymentStatus
  failureReason : Option String
  startedAt : Nat
  finishedAt : Option Nat
deriving DecidableEq, Repr

/-- Committed database state. `ctr` drives both generated ids and `new Date()`
timestamps (the only thing the core needs from either is freshness). -/
structure DB where
  variants : List Variant := []
  schemas : List Schema := []
  versions : List SchemaVersion := []
  deployments : List Deployment := []
  ctr : Nat := 0
deriving DecidableEq, Repr

/-- Hex digit for generated uuids, lowercase as Postgres renders them. -/
def hexChar (n : Nat) : Char :=
  if n < 10 then Char.ofNat (48 + n) else Char.ofNat (97 + (n - 10))

/-- Generated primary key (`PrimaryGeneratedColumn('uuid')`), rendered in the
canonical 8-4-4-4-12 format so that generated ids satisfy the service's uuid
regex, with the counter in the final 12 hex digits. -/
def genId (n : Nat) : String :=
  "00000000-0000-4000-8000-" ++
    String.mk ((List.range 12).map fun i => hexChar (n / 16 ^ (11 - i) % 16))

/-- The character class `[0-9a-f]` with the `i` flag of the uuid regex in
`SchemaService.deploySchema`. -/
def isHexDigit (c : Char) : Bool :=
  (48 ≤ c.toNat && c.toNat ≤ 57) ||
  (97 ≤ c.toNat && c.toNat ≤ 102) ||
  (65 ≤ c.toNat && c.toNat ≤ 70)

/-- The test `/^[0-9a-f]{8}-[0-9a-f]{4}-[0-9a-f]{4}-[0-9a-f]{4}-[0-9a-f]{12}$/i`
from `SchemaService.deploySchema`. -/
def isUuidFormat (s : String) : Bool :=
  let cs := s.toList
  cs.length == 36 &&
  (List.range 36).all fun i =>
    if i == 8 || i == 13 || i == 18 || i == 23 then cs.getD i ' ' == '-'
    else isHexDigit (cs.getD i ' ')

/-- UTF-8 encoding of one character, as `Buffer.from(string)` performs it. -/
def utf8EncodeChar (c : Char) : List Nat :=
  let n := c.toNat
  if n < 128 then [n]
  else if n < 2048 then [192 + n / 64, 128 + n % 64]
  else if n < 65536 then [224 + n / 4096, 128 + n / 64 % 64, 128 + n % 64]
  else [240 + n / 262144, 128 + n / 4096 % 64, 128 + n / 64 % 64, 128 + n % 64]

/-- UTF-8 bytes of a string (`Buffer.from(schemaSDL)`). -/
def utf8Bytes (s : String) : List Nat :=
  (s.toList.map utf8EncodeChar).flatten

/-- The base64 alphabet. -/
def b64Alphabet : List Char :=
  "ABCDEFGHIJKLMNOPQRSTUVWXYZabcdefghijklmnopqrstuvwxyz0123456789+/".toList

/-- One base64 digit. -/
def b64Char (n : Nat) : Char := b64Alphabet.getD n 'A'

/-- Standard base64 encoding of a byte list (`buffer.toString('base64')`). -/
def b64Encode : List Nat → List Char
  | [] => []
  | [a] =>
    let w := a * 65536
    [b64Char (w / 262144 % 64), b64Char (w / 4096 % 64), '=', '=']
  | [a, b] =>
    let w := a * 65536 + b * 256
    [b64Char (w / 262144 % 64), b64Char (w / 4096 % 64), b64Char (w / 64 % 64), '=']
  | a :: b :: c :: rest =>
    let w := a * 65536 + b * 256 + c
    b64Char (w / 262144 % 64) :: b64Char (w / 4096 % 64) :: b64Char (w / 64 % 64) ::
      b64Char (w % 64) :: b64Encode rest

/-- The version checksum computed by `SchemaService.deploySchema`:
`Buffer.from(schemaSDL).toString('base64').substring(0, 32)`. -/
def checksumOf (sdl : String) : String :=
  String.mk ((b64Encode (utf8Bytes sdl)).take 32)

/-- `DeploymentService.findById` restricted to the columns the core uses:
first `deployments` row with the given id, `none` when there is no such row. -/
def findById (db : DB) (id : String) : Option Deployment :=
  db.deployments.find? fun d => d.id == id

/-- Effect of `{ status, failureReason, finishedAt: new Date() }` on one
matched row. TypeORM skips `undefined` values, so a `none` `failureReason`
leaves the stored reason untouched. -/
def updRow (status : DeploymentStatus) (failureReason : Option String) (now : Nat)
    (d : Deployment) : Deployment :=
  { d with
    status := status
    failureReason := match failureReason with
      | some r => some r
      | none => d.failureReason
    finishedAt := some now }

/-- Effect of `repo.update(id, { status, failureReason, finishedAt: new Date() })`
on the `deployments` table: rows whose id does not match are untouched; a
missing id makes the update a silent no-op (TypeORM does not fail). -/
def applyUpdate (l : List Deployment) (id : String) (status : DeploymentStatus)
    (failureReason : Option String) (now : Nat) : List Deployment :=
  l.map fun d => if d.id == id then updRow status failureReason now d else d

/-- `DeploymentService.create`: inserts a PENDING row with `startedAt = now`
and a generated id, returning the row. -/
def DeploymentService.create (db : DB) (variantId schemaVersionId : String) :
    Deployment × DB :=
  let d : Deployment :=
    { id := genId db.ctr
      variantId := variantId
      schemaVersionId := schemaVersionId
      status := .PENDING
      failureReason := none
      startedAt := db.ctr
      finishedAt := none }
  (d, { db with deployments := db.deployments ++ [d], ctr := db.ctr + 1 })

/-- `DeploymentService.updateStatus` called without a transaction manager:
the update and the `findById` read-back both hit the committed state, so the
read-back sees the update. -/
def DeploymentService.updateStatus (db : DB) (id : String)
    (status : DeploymentStatus) (failureReason : Option String) :
    DB × Option Deployment :=
  let db1 := { db with
    deployments := applyUpdate db.deployments id status failureReason db.ctr
    ctr := db.ctr + 1 }
  (db1, findById db1 id)

/-- `DeploymentService.updateStatus` called with the transaction manager:
the update goes to the transaction (working) state, but the read-back
(`this.findById`) goes through the service's own repository, i.e. a separate
connection that sees only the committed state. -/
def DeploymentService.updateStatusTx (committed working : DB) (id : String)
    (status : DeploymentStatus) (failureReason : Option String) :
    DB × Option Deployment :=
  let w1 := { working with
    deployments := applyUpdate working.deployments id status failureReason working.ctr
    ctr := working.ctr + 1 }
  (w1, findById committed id)

/-- Variant resolution in `SchemaService.deploySchema`: uuid-shaped input is
looked up with the disjunctive where-array `[{ id }, { name }]`, other input by
name only; `findOne` returns the first matching row. -/
def resolveVariant (db : DB) (ident : String) : Option Variant :=
  if isUuidFormat ident then
    db.variants.find? fun v => v.id == ident || v.name == ident
  else
    db.variants.find? fun v => v.name == ident

/-- Step 1 of the deploy transaction: find-or-create of the logical schema row
for `(variant.id, schemaName)`. -/
def findOrCreateSchema (db : DB) (variantId schemaName : String) : Schema × DB :=
  match db.schemas.find? fun s => s.variantId == variantId && s.name == schemaName with
  | some s => (s, db)
  | none =>
    let s : Schema := { id := genId db.ctr, variantId := variantId,
                        name := schemaName, activeVersionId := none }
    (s, { db with schemas := db.schemas ++ [s], ctr := db.ctr + 1 })

/-- Step 2 of the deploy transaction: insert the new `SchemaVersion` with
`checksum = base64(sdl).substring(0,32)` and
`versionOrder = count(versions of this schema) + 1`. -/
def appendVersion (db : DB) (schemaId sdl label : String) : SchemaVersion × DB :=
  let ver : SchemaVersion :=
    { id := genId db.ctr
      schemaId := schemaId
      schemaSDL := sdl
      versionLabel := label
      checksum := checksumOf sdl
      versionOrder := (db.versions.filter fun x => x.schemaId == schemaId).length + 1 }
  (ver, { db with versions := db.versions ++ [ver], ctr := db.ctr + 1 })

/-- `manager.update(Schema, schemaId, { activeVersionId: some versionId })`
and `schemaRepo.update(schemaId, ...)`: moves the active pointer of every
schema row with the given id. -/
def setActiveVersion (db : DB) (schemaId versionId : String) : DB :=
  { db with
    schemas := db.schemas.map fun s =>
      if s.id == schemaId then { s with activeVersionId := some versionId } else s }

/-- Result of one call to `deploySchema` or `rollbackSchema`: the value the
promise settles with (`.error` = the call rejected with that `Error` message,
`.ok` = the resolved `Deployment | null`), the committed database state after
the call, and how many requests were made to the upstream sync client. -/
structure OpResult where
  result : Except String (Option Deployment)
  db : DB
  syncCalls : Nat
deriving Repr

/-- `SchemaService.deploySchema`. The body after variant resolution runs in
`schemaRepo.manager.transaction`: writes go to a working copy that is committed
only when the callback returns normally; when the callback throws (the publish
transport error, or the synthetic error for `accepted=false`), the transaction
is rolled back — the committed state reverts to the pre-transaction state,
including the `FAILED` status update written just before the rethrow. -/
def SchemaService.deploySchema (db : DB)
    (variantIdOrName schemaName schemaSDL versionLabel : String)
    (dryRun : Bool) (upstream : UpstreamOutcome) : OpResult :=
  match resolveVariant db variantIdOrName with
  | none => ⟨.error ("Variant not found: " ++ variantIdOrName), db, 0⟩
  | some variant =>
    -- transaction body; `db` stays the committed state while it runs
    let sw := findOrCreateSchema db variant.id schemaName
    let vw := appendVersion sw.2 sw.1.id schemaSDL versionLabel
    let dw := DeploymentService.create vw.2 variant.id vw.1.id
    if dryRun then
      let uw := DeploymentService.updateStatusTx db dw.2 dw.1.id .SUCCEEDED none
      ⟨.ok uw.2, uw.1, 0⟩
    else
      let w4 := setActiveVersion dw.2 sw.1.id vw.1.id
      match upstream with
      | .transport msg =>
        -- catch: mark FAILED on the transaction state, rethrow; the rethrow
        -- rolls the transaction back, so the mark never reaches committed state
        let _dead := DeploymentService.updateStatusTx db w4 dw.1.id .FAILED (some msg)
        ⟨.error msg, db, 1⟩
      | .response r =>
        if r.success then
          let uw := DeploymentService.updateStatusTx db w4 dw.1.id .SUCCEEDED none
          ⟨.ok uw.2, uw.1, 1⟩
        else
          let msg := "Apollo Sync Failed: " ++
            String.intercalate ", " (r.compositionErrors.map fun e => e.message)
          let _dead := DeploymentService.updateStatusTx db w4 dw.1.id .FAILED (some msg)
          ⟨.error msg, db, 1⟩

/-- `SchemaService.rollbackSchema`: no transaction, every write commits
directly; the version is resolved purely by its id, the new attempt is created
against the caller-supplied `variantId`, the pointer of the version's owning
schema is moved, and the attempt is marked SUCCEEDED. No upstream call. -/
def SchemaService.rollbackSchema (db : DB)
    (variantId targetSchemaVersionId : String) : OpResult :=
  match db.versions.find? fun x => x.id == targetSchemaVersionId with
  | none => ⟨.error "Target schema version not found", db, 0⟩
  | some ver =>
    let dw := DeploymentService.create db variantId ver.id
    let db2 := setActiveVersion dw.2 ver.schemaId ver.id
    let uw := DeploymentService.updateStatus db2 dw.1.id .SUCCEEDED none
    ⟨.ok uw.2, uw.1, 0⟩


/-! ## Fixtures and auxiliary predicates -/

/-- A deployment target named `prod`. -/
def uuidProd : String := "11111111-1111-1111-1111-111111111111"

/-- The `prod` variant row. -/
def variantProd : Variant := ⟨uuidProd, "prod"⟩

/-- Registry holding only the `prod` target. -/
def dbProd : DB := { variants := [variantProd] }

/-- Id of a pre-existing logical schema. -/
def schId0 : String := "33333333-3333-3333-3333-333333333333"

/-- Id of a pre-existing, currently active schema version. -/
def verId0 : String := "44444444-4444-4444-4444-444444444444"

/-- Registry with the `prod` target, one logical schema `inventory` and one
already-active version. -/
def dbActive : DB :=
  { variants := [variantProd]
    schemas := [⟨schId0, uuidProd, "inventory", some verId0⟩]
    versions := [⟨verId0, schId0, "type Query base", "v1", checksumOf "type Query base", 1⟩]
    deployments := []
    ctr := 10 }

/-- A second target id, uuid-shaped. -/
def uuidOther : String := "22222222-2222-2222-2222-222222222222"

/-- Registry in which the string `uuidProd` is simultaneously the *name* of
one target (listed first, as the earlier row of the table) and the *id* of a
different target. -/
def dbAmbig : DB :=
  { variants := [⟨uuidOther, uuidProd⟩, ⟨uuidProd, "prod"⟩] }

/-- Id of the pre-existing attempt row of `dbOneAttempt`. -/
def attemptId0 : String := "55555555-5555-5555-5555-555555555555"

/-- The PENDING attempt row of `dbOneAttempt`. -/
def pendingAttempt : Deployment :=
  { id := attemptId0
    variantId := uuidProd
    schemaVersionId := verId0
    status := .PENDING
    failureReason := none
    startedAt := 7
    finishedAt := none }

/-- Registry with one PENDING attempt, used against the ledger claims. -/
def dbOneAttempt : DB :=
  { variants := [variantProd], deployments := [pendingAttempt], ctr := 20 }

/-- The statuses the core operations actually assign. -/
def allowedStatus (s : DeploymentStatus) : Prop :=
  s = .PENDING ∨ s = .SUCCEEDED ∨ s = .FAILED

/-- Every attempt row of the list carries one of the three assigned statuses. -/
def statusesOK (l : List Deployment) : Prop :=
  ∀ d ∈ l, allowedStatus d.status

/-- Every attempt row of the database carries one of the three assigned
statuses. -/
def ledgerOK (db : DB) : Prop := statusesOK db.deployments

/-- Iterates `deploySchema` over a list of `(sdl, label, dryRun)` inputs
against a fixed `(target identifier, schema name)` pair, with the upstream
always accepting; every such call is a successful deploy. -/
def deployN (ident nm : String) : List (String × String × Bool) → DB → DB
  | [], db => db
  | p :: rest, db =>
    deployN ident nm rest
      (SchemaService.deploySchema db ident nm p.1 p.2.1 p.2.2 (.response ⟨true, []⟩)).db

/-! ## Helper lemmas -/

theorem applyUpdate_append (l1 l2 : List Deployment) (id : String)
    (st : DeploymentStatus) (r : Option String) (now : Nat) :
    applyUpdate (l1 ++ l2) id st r now =
      applyUpdate l1 id st r now ++ applyUpdate l2 id st r now :=
  List.map_append _ _ _

theorem applyUpdate_map_variantId (l : List Deployment) (id : String)
    (st : DeploymentStatus) (r : Option String) (now : Nat) :
    (applyUpdate l id st r now).map (fun d => d.variantId) =
      l.map fun d => d.variantId := by
  unfold applyUpdate
  rw [List.map_map]
  apply List.map_congr_left
  intro d _
  by_cases h : (d.id == id) = true
  · show (if d.id == id then updRow st r now d else d).variantId = d.variantId
    rw [if_pos h]
    rfl
  · show (if d.id == id then updRow st r now d else d).variantId = d.variantId
    rw [if_neg h]

theorem applyUpdate_length (l : List Deployment) (id : String)
    (st : DeploymentStatus) (r : Option String) (now : Nat) :
    (applyUpdate l id st r now).length = l.length :=
  List.length_map _ _

theorem find?_applyUpdate (l : List Deployment) (id : String)
    (st : DeploymentStatus) (r : Option String) (now : Nat) :
    (applyUpdate l id st r now).find? (fun d => d.id == id) =
      (l.find? fun d => d.id == id).map (updRow st r now) := by
  induction l with
  | nil => rfl
  | cons d t ih =>
    show List.find? (fun x => x.id == id)
        ((if d.id == id then updRow st r now d else d) :: applyUpdate t id st r now) = _
    by_cases h : (d.id == id) = true
    · rw [if_pos h,
        @List.find?_cons_of_pos _ (fun x : Deployment => x.id == id) (updRow st r now d)
          (applyUpdate t id st r now) h,
        @List.find?_cons_of_pos _ (fun x : Deployment => x.id == id) d t h]
      rfl
    · rw [if_neg h,
        @List.find?_cons_of_neg _ (fun x : Deployment => x.id == id) d
          (applyUpdate t id st r now) h,
        @List.find?_cons_of_neg _ (fun x : Deployment => x.id == id) d t h]
      exact ih

theorem applyUpdate_of_absent (l : List Deployment) (id : String)
    (st : DeploymentStatus) (r : Option String) (now : Nat)
    (h : ∀ d ∈ l, ¬(d.id == id) = true) :
    applyUpdate l id st r now = l := by
  unfold applyUpdate
  conv_rhs => rw [← List.map_id l]
  apply List.map_congr_left
  intro d hd
  simp [h d hd]

theorem statusesOK_applyUpdate {l : List Deployment} (hl : statusesOK l)
    {st : DeploymentStatus} (hst : allowedStatus st) (id : String)
    (r : Option String) (now : Nat) :
    statusesOK (applyUpdate l id st r now) := by
  intro d hd
  rcases List.mem_map.mp hd with ⟨d0, hd0, rfl⟩
  by_cases h : (d0.id == id) = true
  · rw [if_pos h]
    exact hst
  · rw [if_neg h]
    exact hl d0 hd0
theorem applyUpdate_singleton_self (d : Deployment) (st : DeploymentStatus)
    (r : Option String) (now : Nat) :
    applyUpdate [d] d.id st r now = [updRow st r now d] := by
  unfold applyUpdate
  simp

@[simp] theorem findOrCreateSchema_snd_deployments (db : DB) (vid nm : String) :
    (findOrCreateSchema db vid nm).2.deployments = db.deployments := by
  unfold findOrCreateSchema
  split <;> rfl

@[simp] theorem findOrCreateSchema_snd_variants (db : DB) (vid nm : String) :
    (findOrCreateSchema db vid nm).2.variants = db.variants := by
  unfold findOrCreateSchema
  split <;> rfl

@[simp] theorem findOrCreateSchema_snd_versions (db : DB) (vid nm : String) :
    (findOrCreateSchema db vid nm).2.versions = db.versions := by
  unfold findOrCreateSchema
  split <;> rfl

theorem findOrCreateSchema_fst_variantId (db : DB) (vid nm : String) :
    (findOrCreateSchema db vid nm).1.variantId = vid := by
  unfold findOrCreateSchema
  cases hf : db.schemas.find? fun s => s.variantId == vid && s.name == nm with
  | none => simp
  | some s =>
    have hp := List.find?_some hf
    simp only [Bool.and_eq_true, beq_iff_eq] at hp
    simp [hp.1]

@[simp] theorem appendVersion_snd_deployments (db : DB) (sid sdl lb : String) :
    (appendVersion db sid sdl lb).2.deployments = db.deployments := rfl

@[simp] theorem appendVersion_snd_variants (db : DB) (sid sdl lb : String) :
    (appendVersion db sid sdl lb).2.variants = db.variants := rfl

@[simp] theorem appendVersion_snd_schemas (db : DB) (sid sdl lb : String) :
    (appendVersion db sid sdl lb).2.schemas = db.schemas := rfl

@[simp] theorem appendVersion_snd_versions (db : DB) (sid sdl lb : String) :
    (appendVersion db sid sdl lb).2.versions =
      db.versions ++ [(appendVersion db sid sdl lb).1] := rfl

@[simp] theorem appendVersion_fst_schemaId (db : DB) (sid sdl lb : String) :
    (appendVersion db sid sdl lb).1.schemaId = sid := rfl

@[simp] theorem create_snd_deployments (db : DB) (a b : String) :
    (DeploymentService.create db a b).2.deployments =
      db.deployments ++ [(DeploymentService.create db a b).1] := rfl

@[simp] theorem create_snd_variants (db : DB) (a b : String) :
    (DeploymentService.create db a b).2.variants = db.variants := rfl

@[simp] theorem create_snd_schemas (db : DB) (a b : String) :
    (DeploymentService.create db a b).2.schemas = db.schemas := rfl

@[simp] theorem create_snd_versions (db : DB) (a b : String) :
    (DeploymentService.create db a b).2.versions = db.versions := rfl

@[simp] theorem create_fst_variantId (db : DB) (a b : String) :
    (DeploymentService.create db a b).1.variantId = a := rfl

@[simp] theorem create_fst_schemaVersionId (db : DB) (a b : String) :
    (DeploymentService.create db a b).1.schemaVersionId = b := rfl

@[simp] theorem create_fst_status (db : DB) (a b : String) :
    (DeploymentService.create db a b).1.status = .PENDING := rfl

@[simp] theorem updateStatusTx_fst_deployments (c w : DB) (id : String)
    (st : DeploymentStatus) (r : Option String) :
    (DeploymentService.updateStatusTx c w id st r).1.deployments =
      applyUpdate w.deployments id st r w.ctr := rfl

@[simp] theorem updateStatusTx_fst_variants (c w : DB) (id : String)
    (st : DeploymentStatus) (r : Option String) :
    (DeploymentService.updateStatusTx c w id st r).1.variants = w.variants := rfl

@[simp] theorem updateStatusTx_fst_schemas (c w : DB) (id : String)
    (st : DeploymentStatus) (r : Option String) :
    (DeploymentService.updateStatusTx c w id st r).1.schemas = w.schemas := rfl

@[simp] theorem updateStatusTx_fst_versions (c w : DB) (id : String)
    (st : DeploymentStatus) (r : Option String) :
    (DeploymentService.updateStatusTx c w id st r).1.versions = w.versions := rfl

@[simp] theorem updateStatus_fst_deployments (db : DB) (id : String)
    (st : DeploymentStatus) (r : Option String) :
    (DeploymentService.updateStatus db id st r).1.deployments =
      applyUpdate db.deployments id st r db.ctr := rfl

@[simp] theorem updateStatus_fst_schemas (db : DB) (id : String)
    (st : DeploymentStatus) (r : Option String) :
    (DeploymentService.updateStatus db id st r).1.schemas = db.schemas := rfl

@[simp] theorem updateStatus_fst_versions (db : DB) (id : String)
    (st : DeploymentStatus) (r : Option String) :
    (DeploymentService.updateStatus db id st r).1.versions = db.versions := rfl

@[simp] theorem setActiveVersion_deployments (db : DB) (a b : String) :
    (setActiveVersion db a b).deployments = db.deployments := rfl

@[simp] theorem setActiveVersion_variants (db : DB) (a b : String) :
    (setActiveVersion db a b).variants = db.variants := rfl

@[simp] theorem setActiveVersion_versions (db : DB) (a b : String) :
    (setActiveVersion db a b).versions = db.versions := rfl

@[simp] theorem setActiveVersion_ctr (db : DB) (a b : String) :
    (setActiveVersion db a b).ctr = db.ctr := rfl

@[simp] theorem create_snd_ctr (db : DB) (a b : String) :
    (DeploymentService.create db a b).2.ctr = db.ctr + 1 := rfl

theorem statusesOK_snoc {l : List Deployment} (hl : statusesOK l)
    {d : Deployment} (hd : allowedStatus d.status) : statusesOK (l ++ [d]) := by
  intro x hx
  rcases List.mem_append.mp hx with h1 | h1
  · exact hl x h1
  · rw [List.mem_singleton.mp h1]
    exact hd

/-- C1. The claim says a deploy whose upstream publish fails leaves the
deployment-attempt ledger row in a terminal FAILED state in the persistent
state observable after the call. The code marks the attempt FAILED inside the
open `manager.transaction` and then rethrows from inside the same transaction,
so TypeORM rolls the whole transaction back: after the call the committed
state is exactly the pre-call state — no attempt row (FAILED or otherwise)
exists at all, for both the composition-rejected and the transport-failure
case, even though the error is re-raised as claimed. -/
theorem deploy_publish_failure_rolls_back_ledger :
    (SchemaService.deploySchema dbActive "prod" "inventory" "type Query a" "v2" false
        (.response ⟨false, [⟨"boom", "E001"⟩]⟩)).db = dbActive ∧
    (SchemaService.deploySchema dbActive "prod" "inventory" "type Query a" "v2" false
        (.response ⟨false, [⟨"boom", "E001"⟩]⟩)).result =
      .error "Apollo Sync Failed: boom" ∧
    (SchemaService.deploySchema dbActive "prod" "inventory" "type Query a" "v2" false
        (.transport "socket hang up")).db = dbActive ∧
    (SchemaService.deploySchema dbActive "prod" "inventory" "type Query a" "v2" false
        (.transport "socket hang up")).result = .error "socket hang up" :=
  ⟨by decide, rfl, by decide, rfl⟩

/-- C2. The claim (from the spec scenario) expects that after a deploy in
which the sync client answers `accepted=false, compositionErrors=[{message:
"bad type"}]` the attempt is FAILED with the reason containing `bad type` and
the active pointer references the new (failed) version. The code does throw
the joined error to the caller, but the rethrow happens inside the
transaction, so everything local is rolled back: no attempt row exists, no new
version exists, and the active pointer still references the old version. -/
theorem deploy_composition_rejected_persists_nothing :
    (SchemaService.deploySchema dbActive "prod" "inventory" "type Query a" "v2" false
        (.response ⟨false, [⟨"bad type", "COMPOSITION_ERROR"⟩]⟩)).result =
      .error "Apollo Sync Failed: bad type" ∧
    (SchemaService.deploySchema dbActive "prod" "inventory" "type Query a" "v2" false
        (.response ⟨false, [⟨"bad type", "COMPOSITION_ERROR"⟩]⟩)).db = dbActive :=
  ⟨rfl, by decide⟩

/-- C3. Dry-run deploy: the active pointer is unchanged, exactly one new
SchemaVersion row exists, the persisted attempt is SUCCEEDED, and no upstream
call is made — all as claimed. But the claim also says the returned attempt
has status SUCCEEDED, and the call actually resolves with `null`: the
read-back inside `updateStatus` goes through `this.findById`, i.e. the
service's own repository on a separate connection, which cannot see the
row inserted by the still-open transaction. -/
theorem deploy_dry_run_commits_but_returns_null :
    (SchemaService.deploySchema dbActive "prod" "inventory" "type Query two" "v2" true
        (.response ⟨true, []⟩)).result = .ok none ∧
    (SchemaService.deploySchema dbActive "prod" "inventory" "type Query two" "v2" true
        (.response ⟨true, []⟩)).db.schemas.map (fun s => s.activeVersionId) =
      [some verId0] ∧
    (SchemaService.deploySchema dbActive "prod" "inventory" "type Query two" "v2" true
        (.response ⟨true, []⟩)).db.versions.length = dbActive.versions.length + 1 ∧
    (SchemaService.deploySchema dbActive "prod" "inventory" "type Query two" "v2" true
        (.response ⟨true, []⟩)).db.deployments.map (fun d => d.status) =
      [.SUCCEEDED] ∧
    (SchemaService.deploySchema dbActive "prod" "inventory" "type Query two" "v2" true
        (.response ⟨true, []⟩)).syncCalls = 0 :=
  ⟨rfl, by decide, by decide, by decide, rfl⟩

/-- C7. The checksum `base64(sdl).substring(0, 32)` depends only on the first
24 bytes of the SDL: two different SDL texts that agree on their first 24
bytes always collide, refuting the claim that differing content yields
different checksums with overwhelming probability. (Identical SDL trivially
yields identical checksums, since the checksum is a pure function.) -/
theorem checksum_collides_on_shared_24_byte_head :
    "type Query hello world AAAAAA one" ≠ "type Query hello world AAAAAA two" ∧
    checksumOf "type Query hello world AAAAAA one" =
      checksumOf "type Query hello world AAAAAA two" :=
  ⟨by decide, rfl⟩

/-- C4 counterexample. With an identifier that is both a valid id and a valid
name of different targets, the claim says the id match wins. The code issues a
single disjunctive `findOne` (`where: [{id}, {name}]`), which returns the
first matching table row — here the *name* match: the deployment attempt is
created for the target whose name (not id) equals the identifier. -/
theorem deploy_ambiguous_identifier_name_row_wins :
    ((SchemaService.deploySchema dbAmbig uuidProd "inventory" "type Query a" "v1" true
        (.response ⟨true, []⟩)).db.deployments.map fun d => d.variantId) =
      [uuidOther] ∧ uuidOther ≠ uuidProd :=
  ⟨by decide, by decide⟩

/-- C8 counterexample. The claim says `updateStatus` stores the failure
reason only when the status is FAILED, and fails with `NotFoundError` when
the attempt id does not exist. The code passes the reason through for every
status — updating to SUCCEEDED with a reason stores that reason — and a
missing id makes `repo.update` silently affect zero rows, after which the
call returns `null` instead of raising any error. -/
theorem updateStatus_stores_reason_for_succeeded_and_ignores_missing_id :
    ((DeploymentService.updateStatus dbOneAttempt attemptId0 .SUCCEEDED
        (some "oops")).2.map fun d => (d.status, d.failureReason)) =
      some (.SUCCEEDED, some "oops") ∧
    (DeploymentService.updateStatus dbOneAttempt
        "99999999-9999-9999-9999-999999999999" .FAILED (some "gone")).2 = none ∧
    (DeploymentService.updateStatus dbOneAttempt
        "99999999-9999-9999-9999-999999999999" .FAILED
        (some "gone")).1.deployments = dbOneAttempt.deployments :=
  ⟨by decide, by decide, by decide⟩


/-- C8 amended. What `updateStatus` actually does: it sets the given status
and `finishedAt = now` on the matched attempt; the failure reason is stored
whenever one is passed, regardless of status, and when none is passed the
previously stored reason is left in place rather than cleared; when the
attempt id does not exist the update silently affects no row and the call
returns `null` instead of failing with a `NotFoundError`. -/
theorem updateStatus_contract (db : DB) (id : String) (st : DeploymentStatus)
    (reason : Option String) :
    (findById db id = none →
      (DeploymentService.updateStatus db id st reason).1.deployments =
        db.deployments ∧
      (DeploymentService.updateStatus db id st reason).2 = none) ∧
    (∀ d, findById db id = some d →
      (DeploymentService.updateStatus db id st reason).2 =
        some (updRow st reason db.ctr d)) := by
  constructor
  · intro h
    unfold findById at h
    have habs : ∀ x ∈ db.deployments, ¬(x.id == id) = true :=
      List.find?_eq_none.mp h
    constructor
    · rw [updateStatus_fst_deployments]
      exact applyUpdate_of_absent _ _ _ _ _ habs
    · show (applyUpdate db.deployments id st reason db.ctr).find?
        (fun d => d.id == id) = none
      rw [find?_applyUpdate, h]
      rfl
  · intro d hd
    unfold findById at hd
    show (applyUpdate db.deployments id st reason db.ctr).find?
      (fun x => x.id == id) = some (updRow st reason db.ctr d)
    rw [find?_applyUpdate, hd]
    rfl

/-- Witness for the C8 amended contract at a concrete registry: updating the
existing PENDING attempt to FAILED with a reason stores the reason and stamps
`finishedAt`, and the missing-id branch returns no attempt. -/
theorem updateStatus_contract_witness :
    (DeploymentService.updateStatus dbOneAttempt attemptId0 .FAILED
        (some "upstream down")).2 =
      some (updRow .FAILED (some "upstream down") 20 pendingAttempt) ∧
    (DeploymentService.updateStatus dbOneAttempt
        "99999999-9999-9999-9999-999999999999" .SUCCEEDED none).2 = none :=
  ⟨(updateStatus_contract dbOneAttempt attemptId0 .FAILED
      (some "upstream down")).2 pendingAttempt (by decide),
   ((updateStatus_contract dbOneAttempt
      "99999999-9999-9999-9999-999999999999" .SUCCEEDED none).1 (by decide)).2⟩

/-- C5. `rollbackSchema` behaves as the claim states: when the target version
id resolves to no SchemaVersion the call rejects with the version-not-found
error and changes nothing; otherwise it creates exactly one new
DeploymentAttempt referencing the existing version (no new version row is
created), the attempt ends SUCCEEDED with `finishedAt` stamped, the owning
schema's active-version pointer is re-activated to that version, and zero
requests are made to the upstream sync client. -/
theorem rollbackSchema_spec (db : DB) (targetId versionId : String) :
    (db.versions.find? (fun x => x.id == versionId) = none →
      SchemaService.rollbackSchema db targetId versionId =
        ⟨.error "Target schema version not found", db, 0⟩) ∧
    (∀ ver, db.versions.find? (fun x => x.id == versionId) = some ver →
      (SchemaService.rollbackSchema db targetId versionId).syncCalls = 0 ∧
      (∃ res, (SchemaService.rollbackSchema db targetId versionId).result = .ok res) ∧
      (SchemaService.rollbackSchema db targetId versionId).db.versions = db.versions ∧
      (SchemaService.rollbackSchema db targetId versionId).db.deployments.length =
        db.deployments.length + 1 ∧
      (∃ d, (SchemaService.rollbackSchema db targetId versionId).db.deployments.getLast? =
          some d ∧ d.variantId = targetId ∧ d.schemaVersionId = ver.id ∧
          d.status = .SUCCEEDED ∧ d.finishedAt ≠ none) ∧
      (∀ s ∈ (SchemaService.rollbackSchema db targetId versionId).db.schemas,
        s.id = ver.schemaId → s.activeVersionId = some ver.id)) := by
  constructor
  · intro h
    unfold SchemaService.rollbackSchema
    simp only [h]
  · intro ver h
    unfold SchemaService.rollbackSchema
    simp only [h]
    refine ⟨by trivial, ⟨_, rfl⟩, by simp, ?_, ?_, ?_⟩
    · simp [applyUpdate_length]
    · simp only [updateStatus_fst_deployments, setActiveVersion_deployments,
        create_snd_deployments]
      rw [applyUpdate_append, applyUpdate_singleton_self, List.getLast?_concat]
      exact ⟨_, rfl, rfl, rfl, rfl, by simp [updRow]⟩
    · intro s hs hsid
      simp only [updateStatus_fst_schemas, setActiveVersion, create_snd_schemas] at hs
      rcases List.mem_map.mp hs with ⟨s0, _, rfl⟩
      by_cases h2 : (s0.id == ver.schemaId) = true
      · rw [if_pos h2]
      · rw [if_neg h2] at hsid ⊢
        exact absurd (beq_iff_eq.mpr hsid) h2

/-- Witness for C5 at a concrete registry: rolling back `prod` to the
existing version re-activates the pointer, appends one SUCCEEDED attempt and
touches no upstream, and a rollback to a missing version id rejects without
any state change. -/
theorem rollbackSchema_spec_witness :
    (SchemaService.rollbackSchema dbActive uuidProd
        "99999999-9999-9999-9999-999999999999" =
      ⟨.error "Target schema version not found", dbActive, 0⟩) ∧
    (SchemaService.rollbackSchema dbActive uuidProd verId0).syncCalls = 0 ∧
    (SchemaService.rollbackSchema dbActive uuidProd verId0).db.deployments.length =
      dbActive.deployments.length + 1 :=
  ⟨(rollbackSchema_spec dbActive uuidProd
      "99999999-9999-9999-9999-999999999999").1 (by decide),
   ((rollbackSchema_spec dbActive uuidProd verId0).2 ⟨verId0, schId0,
      "type Query base", "v1", checksumOf "type Query base", 1⟩ (by rfl)).1,
   ((rollbackSchema_spec dbActive uuidProd verId0).2 ⟨verId0, schId0,
      "type Query base", "v1", checksumOf "type Query base", 1⟩ (by rfl)).2.2.2.1⟩

/-- C9. `rollbackSchema` never checks that the version belongs to the
supplied target: when the version exists but its owning schema row carries a
different `variantId` than the caller-supplied target, the call still
resolves rather than rejecting, the *other* schema's active pointer is moved
to the version, and the SUCCEEDED attempt is recorded under the supplied
(mismatched) target id. -/
theorem rollback_ignores_target_ownership (db : DB) (targetId versionId : String)
    (ver : SchemaVersion) (srow : Schema)
    (hfind : db.versions.find? (fun x => x.id == versionId) = some ver)
    (hmem : srow ∈ db.schemas) (hid : srow.id = ver.schemaId)
    (_hforeign : srow.variantId ≠ targetId) :
    (∃ res, (SchemaService.rollbackSchema db targetId versionId).result = .ok res) ∧
    { srow with activeVersionId := some ver.id } ∈
      (SchemaService.rollbackSchema db targetId versionId).db.schemas ∧
    (∃ d, (SchemaService.rollbackSchema db targetId versionId).db.deployments.getLast? =
        some d ∧ d.variantId = targetId ∧ d.status = .SUCCEEDED ∧
        d.schemaVersionId = ver.id) := by
  unfold SchemaService.rollbackSchema
  simp only [hfind]
  refine ⟨⟨_, rfl⟩, ?_, ?_⟩
  · simp only [updateStatus_fst_schemas, setActiveVersion, create_snd_schemas]
    have : ({ srow with activeVersionId := some ver.id } : Schema) =
        if srow.id == ver.schemaId then { srow with activeVersionId := some ver.id }
        else srow := by
      rw [if_pos (beq_iff_eq.mpr hid)]
    rw [this]
    exact List.mem_map_of_mem _ hmem
  · simp only [updateStatus_fst_deployments, setActiveVersion_deployments,
      create_snd_deployments]
    rw [applyUpdate_append, applyUpdate_singleton_self, List.getLast?_concat]
    exact ⟨_, rfl, rfl, rfl, rfl⟩

/-- Witness for C9: version `verId0` belongs to the schema of target `prod`,
yet rolling it back under the unrelated target id `uuidOther` resolves and
records the attempt under `uuidOther`. -/
theorem rollback_ignores_target_ownership_witness :
    (∃ res, (SchemaService.rollbackSchema dbActive uuidOther verId0).result = .ok res) ∧
    ({ id := schId0, variantId := uuidProd, name := "inventory",
       activeVersionId := some verId0 } : Schema) ∈
      (SchemaService.rollbackSchema dbActive uuidOther verId0).db.schemas ∧
    (∃ d, (SchemaService.rollbackSchema dbActive uuidOther verId0).db.deployments.getLast? =
        some d ∧ d.variantId = uuidOther ∧ d.status = .SUCCEEDED ∧
        d.schemaVersionId = verId0) :=
  rollback_ignores_target_ownership dbActive uuidOther verId0
    ⟨verId0, schId0, "type Query base", "v1", checksumOf "type Query base", 1⟩
    ⟨schId0, uuidProd, "inventory", some verId0⟩
    (by rfl) (by decide) (by decide) (by decide)

/-- C10. Starting from any registry whose attempts all carry one of PENDING,
SUCCEEDED or FAILED, both core operations preserve that invariant — deploy
creates attempts as PENDING and terminates them as SUCCEEDED or FAILED, and
rollback creates PENDING and terminates as SUCCEEDED — so IN_PROGRESS and
ROLLED_BACK are never assigned; in particular the attempt recorded by a
successful rollback ends SUCCEEDED, not ROLLED_BACK. -/
theorem core_ops_assign_only_three_statuses (db : DB)
    (i nm sdl lb tid vid : String) (dry : Bool) (u : UpstreamOutcome)
    (h : ledgerOK db) :
    ledgerOK (SchemaService.deploySchema db i nm sdl lb dry u).db ∧
    ledgerOK (SchemaService.rollbackSchema db tid vid).db ∧
    (∀ ver, db.versions.find? (fun x => x.id == vid) = some ver →
      ∃ d, (SchemaService.rollbackSchema db tid vid).db.deployments.getLast? =
        some d ∧ d.status = .SUCCEEDED) := by
  have hP : allowedStatus DeploymentStatus.PENDING := Or.inl rfl
  have hS : allowedStatus DeploymentStatus.SUCCEEDED := Or.inr (Or.inl rfl)
  have hF : allowedStatus DeploymentStatus.FAILED := Or.inr (Or.inr rfl)
  refine ⟨?_, ?_, ?_⟩
  · unfold SchemaService.deploySchema
    cases hres : resolveVariant db i with
    | none => exact h
    | some v =>
      unfold ledgerOK
      dsimp only
      split
      · simp only [updateStatusTx_fst_deployments, setActiveVersion_deployments,
          create_snd_deployments, appendVersion_snd_deployments,
          findOrCreateSchema_snd_deployments]
        exact statusesOK_applyUpdate (statusesOK_snoc h (by simp [allowedStatus])) hS _ _ _
      · split
        · exact h
        · split
          · simp only [updateStatusTx_fst_deployments, setActiveVersion_deployments,
              create_snd_deployments, appendVersion_snd_deployments,
              findOrCreateSchema_snd_deployments]
            exact statusesOK_applyUpdate (statusesOK_snoc h (by simp [allowedStatus])) hS _ _ _
          · exact h
  · unfold SchemaService.rollbackSchema
    cases hfind : db.versions.find? fun x => x.id == vid with
    | none => exact h
    | some ver =>
      unfold ledgerOK
      simp only [updateStatus_fst_deployments, setActiveVersion_deployments,
        create_snd_deployments]
      exact statusesOK_applyUpdate (statusesOK_snoc h (by simp [allowedStatus])) hS _ _ _
  · intro ver hfind
    unfold SchemaService.rollbackSchema
    simp only [hfind, updateStatus_fst_deployments, setActiveVersion_deployments,
      create_snd_deployments]
    rw [applyUpdate_append, applyUpdate_singleton_self, List.getLast?_concat]
    exact ⟨_, rfl, rfl⟩

/-- Witness for C10 at a concrete registry: a published deploy and a rollback
both leave every attempt in the three-status set, and the rollback attempt
itself ends SUCCEEDED. -/
theorem core_ops_assign_only_three_statuses_witness :
    ledgerOK (SchemaService.deploySchema dbActive "prod" "inventory"
      "type Query two" "v2" false (.response ⟨true, []⟩)).db ∧
    ledgerOK (SchemaService.rollbackSchema dbActive uuidProd verId0).db ∧
    (∃ d, (SchemaService.rollbackSchema dbActive uuidProd verId0).db.deployments.getLast? =
      some d ∧ d.status = .SUCCEEDED) :=
  ⟨(core_ops_assign_only_three_statuses dbActive "prod" "inventory"
      "type Query two" "v2" uuidProd verId0 false (.response ⟨true, []⟩)
      (by intro d hd; cases hd)).1,
   (core_ops_assign_only_three_statuses dbActive "prod" "inventory"
      "type Query two" "v2" uuidProd verId0 false (.response ⟨true, []⟩)
      (by intro d hd; cases hd)).2.1,
   (core_ops_assign_only_three_statuses dbActive "prod" "inventory"
      "type Query two" "v2" uuidProd verId0 false (.response ⟨true, []⟩)
      (by intro d hd; cases hd)).2.2
      ⟨verId0, schId0, "type Query base", "v1", checksumOf "type Query base", 1⟩
      (by rfl)⟩

/-- C4 amended. Target resolution as the code performs it: when nothing
resolves, the call rejects with the variant-not-found error and leaves the
registry untouched (no attempt row); identifiers that do not match the uuid
format are looked up by name only, so they reject whenever no variant carries
that name; and when resolution does return a variant — the *first* table row
matching id-or-name for uuid-shaped input, with no priority for the id match
(see the counterexample) — the one attempt created by a dry-run deploy is
recorded against that variant. -/
theorem deploySchema_target_resolution (db : DB) (ident nm sdl lb : String)
    (dry : Bool) (u : UpstreamOutcome) :
    (resolveVariant db ident = none →
      SchemaService.deploySchema db ident nm sdl lb dry u =
        ⟨.error ("Variant not found: " ++ ident), db, 0⟩) ∧
    (isUuidFormat ident = false → (∀ w ∈ db.variants, w.name ≠ ident) →
      SchemaService.deploySchema db ident nm sdl lb dry u =
        ⟨.error ("Variant not found: " ++ ident), db, 0⟩) ∧
    (∀ v, resolveVariant db ident = some v →
      ((SchemaService.deploySchema db ident nm sdl lb true u).db.deployments.map
          fun d => d.variantId) =
        db.deployments.map (fun d => d.variantId) ++ [v.id]) := by
  refine ⟨?_, ?_, ?_⟩
  · intro h
    unfold SchemaService.deploySchema
    simp only [h]
  · intro hu hnone
    have h : resolveVariant db ident = none := by
      unfold resolveVariant
      rw [if_neg (by simp [hu])]
      exact List.find?_eq_none.mpr fun w hw => by simp [hnone w hw]
    unfold SchemaService.deploySchema
    simp only [h]
  · intro v hres
    unfold SchemaService.deploySchema
    simp only [hres, if_true, updateStatusTx_fst_deployments,
      setActiveVersion_deployments, create_snd_deployments,
      appendVersion_snd_deployments, findOrCreateSchema_snd_deployments]
    rw [applyUpdate_map_variantId, List.map_append]
    simp

/-- Witness for the C4 amended resolution contract: an unresolvable name
rejects with no attempt row, and a resolvable name records the dry-run
attempt against the resolved target. -/
theorem deploySchema_target_resolution_witness :
    SchemaService.deploySchema dbProd "nope" "inventory" "x" "v1" false
        (.transport "t") =
      ⟨.error ("Variant not found: " ++ "nope"), dbProd, 0⟩ ∧
    ((SchemaService.deploySchema dbProd "prod" "inventory" "x" "v1" true
        (.transport "t")).db.deployments.map fun d => d.variantId) =
      dbProd.deployments.map (fun d => d.variantId) ++ [variantProd.id] :=
  ⟨(deploySchema_target_resolution dbProd "nope" "inventory" "x" "v1" false
      (.transport "t")).2.1 (by decide) (by decide),
   (deploySchema_target_resolution dbProd "prod" "inventory" "x" "v1" true
      (.transport "t")).2.2 variantProd (by decide)⟩

theorem find?_schema_setActive_map (l : List Schema) (sid vid : String)
    (p : Schema → Bool)
    (hp : ∀ s : Schema, p { s with activeVersionId := some vid } = p s) :
    (l.map fun s =>
        if s.id == sid then { s with activeVersionId := some vid } else s).find? p =
      (l.find? p).map fun s =>
        if s.id == sid then { s with activeVersionId := some vid } else s := by
  rw [List.find?_map]
  have hcomp : (p ∘ fun s : Schema =>
      if s.id == sid then { s with activeVersionId := some vid } else s) = p := by
    funext s
    by_cases h : (s.id == sid) = true
    · simp only [Function.comp, if_pos h]
      exact hp s
    · simp only [Function.comp, if_neg h]
  rw [hcomp]

theorem deploy_step_found (db : DB) (ident nm sdl lb : String) (dry : Bool)
    (v : Variant) (srow : Schema)
    (hres : resolveVariant db ident = some v)
    (hfound : db.schemas.find?
      (fun s => s.variantId == v.id && s.name == nm) = some srow) :
    (SchemaService.deploySchema db ident nm sdl lb dry
      (.response ⟨true, []⟩)).db.variants = db.variants ∧
    ((SchemaService.deploySchema db ident nm sdl lb dry
        (.response ⟨true, []⟩)).db.schemas = db.schemas ∨
      (SchemaService.deploySchema db ident nm sdl lb dry
        (.response ⟨true, []⟩)).db.schemas = db.schemas.map fun s =>
          if s.id == srow.id then { s with activeVersionId := some (genId db.ctr) }
          else s) ∧
    (SchemaService.deploySchema db ident nm sdl lb dry
        (.response ⟨true, []⟩)).db.versions =
      db.versions ++ [({ id := genId db.ctr, schemaId := srow.id, schemaSDL := sdl,
                         versionLabel := lb, checksum := checksumOf sdl,
                         versionOrder := (db.versions.filter
                           fun x => x.schemaId == srow.id).length + 1 } :
        SchemaVersion)] := by
  have hsw : findOrCreateSchema db v.id nm = (srow, db) := by
    unfold findOrCreateSchema
    rw [hfound]
  unfold SchemaService.deploySchema
  simp only [hres]
  rw [hsw]
  cases dry with
  | true =>
    refine ⟨by simp, Or.inl (by simp), ?_⟩
    simp [appendVersion]
  | false =>
    refine ⟨by simp, Or.inr ?_, ?_⟩
    · simp [setActiveVersion, appendVersion]
    · simp [appendVersion]

theorem deploy_step_created (db : DB) (ident nm sdl lb : String) (dry : Bool)
    (v : Variant)
    (hres : resolveVariant db ident = some v)
    (hnf : db.schemas.find?
      (fun s => s.variantId == v.id && s.name == nm) = none) :
    (SchemaService.deploySchema db ident nm sdl lb dry
      (.response ⟨true, []⟩)).db.variants = db.variants ∧
    ((SchemaService.deploySchema db ident nm sdl lb dry
        (.response ⟨true, []⟩)).db.schemas =
          db.schemas ++ [({ id := genId db.ctr, variantId := v.id, name := nm,
                            activeVersionId := none } : Schema)] ∨
      (SchemaService.deploySchema db ident nm sdl lb dry
        (.response ⟨true, []⟩)).db.schemas =
          (db.schemas ++ [({ id := genId db.ctr, variantId := v.id, name := nm,
                             activeVersionId := none } : Schema)]).map fun s =>
            if s.id == genId db.ctr then
              { s with activeVersionId := some (genId (db.ctr + 1)) }
            else s) ∧
    (SchemaService.deploySchema db ident nm sdl lb dry
        (.response ⟨true, []⟩)).db.versions =
      db.versions ++ [({ id := genId (db.ctr + 1), schemaId := genId db.ctr,
                         schemaSDL := sdl, versionLabel := lb,
                         checksum := checksumOf sdl,
                         versionOrder := (db.versions.filter
                           fun x => x.schemaId == genId db.ctr).length + 1 } :
        SchemaVersion)] := by
  have hsw : findOrCreateSchema db v.id nm =
      (⟨genId db.ctr, v.id, nm, none⟩,
        { db with schemas := db.schemas ++ [⟨genId db.ctr, v.id, nm, none⟩],
                  ctr := db.ctr + 1 }) := by
    unfold findOrCreateSchema
    rw [hnf]
  unfold SchemaService.deploySchema
  simp only [hres]
  rw [hsw]
  cases dry with
  | true =>
    refine ⟨by simp, Or.inl (by simp), ?_⟩
    simp [appendVersion]
  | false =>
    refine ⟨by simp, Or.inr ?_, ?_⟩
    · simp [setActiveVersion, appendVersion]
    · simp [appendVersion]

theorem deployN_established (ident nm : String) (v : Variant) (S : String)
    (hu : isUuidFormat ident = false) :
    ∀ (inputs : List (String × String × Bool)) (db : DB) (k : Nat),
      db.variants.find? (fun w => w.name == ident) = some v →
      (∃ srow, db.schemas.find?
          (fun s => s.variantId == v.id && s.name == nm) = some srow ∧
        srow.id = S) →
      (db.versions.filter fun x => x.schemaId == S).length = k →
      (deployN ident nm inputs db).versions.map (fun x => x.versionOrder) =
        db.versions.map (fun x => x.versionOrder) ++
          List.range' (k + 1) inputs.length := by
  intro inputs
  induction inputs with
  | nil =>
    intro db k _ _ _
    simp [deployN]
  | cons p rest ih =>
    intro db k hv hsrow hk
    obtain ⟨srow, hfound, hsid⟩ := hsrow
    have hres : resolveVariant db ident = some v := by
      unfold resolveVariant
      rw [if_neg (by simp [hu])]
      exact hv
    obtain ⟨hvar, hsch, hver⟩ :=
      deploy_step_found db ident nm p.1 p.2.1 p.2.2 v srow hres hfound
    set db1 := (SchemaService.deploySchema db ident nm p.1 p.2.1 p.2.2
      (.response ⟨true, []⟩)).db with hdb1
    rw [show deployN ident nm (p :: rest) db = deployN ident nm rest db1 from rfl]
    have hv1 : db1.variants.find? (fun w => w.name == ident) = some v := by
      rw [hvar]
      exact hv
    have hsrow1 : ∃ srow1, db1.schemas.find?
        (fun s => s.variantId == v.id && s.name == nm) = some srow1 ∧
        srow1.id = S := by
      rcases hsch with hcase | hcase
      · exact ⟨srow, by rw [hcase]; exact hfound, hsid⟩
      · refine ⟨{ srow with activeVersionId := some (genId db.ctr) }, ?_, hsid⟩
        rw [hcase, find?_schema_setActive_map _ _ _
          (fun s => s.variantId == v.id && s.name == nm) (fun s => rfl), hfound]
        simp
    have hk1 : (db1.versions.filter fun x => x.schemaId == S).length = k + 1 := by
      rw [hver, List.filter_append]
      simp [hsid, hk]
    have hm : db1.versions.map (fun x => x.versionOrder) =
        db.versions.map (fun x => x.versionOrder) ++ [k + 1] := by
      rw [hver, List.map_append]
      simp [hsid, hk]
    rw [ih db1 (k + 1) hv1 hsrow1 hk1, hm]
    simp [List.range'_succ, List.append_assoc]

/-- C6. For every sequence of successful deploy calls (dry-run or published
with the upstream accepting) against the same resolvable target name and the
same schema name, starting from a registry in which that logical schema does
not yet exist, the created SchemaVersion rows carry sequence numbers exactly
`1..N` in creation order — each assigned as the count of existing versions of
that logical schema plus one. (This holds for the sequential execution the
embedding models; the code offers no protection under concurrent writers,
which the spec itself flags as an open race.) -/
theorem version_orders_are_one_to_n (db0 : DB) (ident nm : String) (v : Variant)
    (inputs : List (String × String × Bool))
    (hu : isUuidFormat ident = false)
    (hv : db0.variants.find? (fun w => w.name == ident) = some v)
    (hs : db0.schemas.find? (fun s => s.variantId == v.id && s.name == nm) = none)
    (hvz : db0.versions.filter (fun x => x.schemaId == genId db0.ctr) = []) :
    (deployN ident nm inputs db0).versions.map (fun x => x.versionOrder) =
      db0.versions.map (fun x => x.versionOrder) ++ List.range' 1 inputs.length := by
  cases inputs with
  | nil => simp [deployN]
  | cons p rest =>
    have hres : resolveVariant db0 ident = some v := by
      unfold resolveVariant
      rw [if_neg (by simp [hu])]
      exact hv
    obtain ⟨hvar, hsch, hver⟩ :=
      deploy_step_created db0 ident nm p.1 p.2.1 p.2.2 v hres hs
    set db1 := (SchemaService.deploySchema db0 ident nm p.1 p.2.1 p.2.2
      (.response ⟨true, []⟩)).db with hdb1
    rw [show deployN ident nm (p :: rest) db0 = deployN ident nm rest db1 from rfl]
    have hv1 : db1.variants.find? (fun w => w.name == ident) = some v := by
      rw [hvar]
      exact hv
    have hsrow1 : ∃ srow1, db1.schemas.find?
        (fun s => s.variantId == v.id && s.name == nm) = some srow1 ∧
        srow1.id = genId db0.ctr := by
      rcases hsch with hcase | hcase
      · refine ⟨{ id := genId db0.ctr, variantId := v.id, name := nm,
                  activeVersionId := none }, ?_, rfl⟩
        rw [hcase, List.find?_append, hs]
        simp
      · refine ⟨{ id := genId db0.ctr, variantId := v.id, name := nm,
                  activeVersionId := some (genId (db0.ctr + 1)) }, ?_, rfl⟩
        rw [hcase, find?_schema_setActive_map _ _ _
          (fun s => s.variantId == v.id && s.name == nm) (fun s => rfl),
          List.find?_append, hs]
        simp
    have hk1 : (db1.versions.filter fun x => x.schemaId == genId db0.ctr).length
        = 1 := by
      rw [hver, List.filter_append, hvz]
      simp
    have hm : db1.versions.map (fun x => x.versionOrder) =
        db0.versions.map (fun x => x.versionOrder) ++ [1] := by
      rw [hver, List.map_append]
      simp [hvz]
    rw [deployN_established ident nm v (genId db0.ctr) hu rest db1 1 hv1 hsrow1 hk1,
      hm]
    simp [List.range'_succ, List.append_assoc]

/-- Witness for C6: two successful deploys (one dry-run, one published) of
`inventory` to the fresh `prod` registry create versions numbered exactly
`[1, 2]`. -/
theorem version_orders_are_one_to_n_witness :
    (deployN "prod" "inventory"
        [("type Query a", "v1", true), ("type Query b", "v2", false)]
        dbProd).versions.map (fun x => x.versionOrder) = [1, 2] := by
  have h := version_orders_are_one_to_n dbProd "prod" "inventory" variantProd
    [("type Query a", "v1", true), ("type Query b", "v2", false)]
    (by decide) (by decide) (by decide) (by decide)
  simpa using h

end GraphGuard
